import Mathlib

/-!
Shallow embedding of the `verified_ranges` crate: canonical physical
addresses (`src/addr.rs`), frames (`src/memory_structs_for_fv/unit.rs`),
inclusive ranges and frame ranges (`src/memory_structs/range_inclusive.rs`,
`src/range.rs`), and the chunk registry (`src/trusted_list.rs`,
`src/trusted_chunk.rs`).

Machine integers (`usize`, 64-bit) are modelled as `Nat`, with an explicit
`% 2 ^ 64` or saturation wherever the source's arithmetic can overflow.
Code that can fail an assertion (`assert!` / `panic!`) is modelled with the
`PanicOr` result type, whose `panicked` constructor stands for unrecoverable
termination, not for a value returned to the caller.
-/

namespace VerifiedRanges

/-- Result of running Rust code that may hit a failed `assert!`: `panicked`
models abnormal termination (no value is returned to the caller), `ok v`
models a normal return of `v`. -/
inductive PanicOr (α : Type) where
  | panicked : PanicOr α
  | ok : α → PanicOr α
deriving DecidableEq

/-- Constant `PAGE_SHIFT = 12` from `addr.rs`. -/
def PAGE_SHIFT : Nat := 12

/-- Constant `PAGE_SIZE = 1 << PAGE_SHIFT` from `addr.rs`. -/
def PAGE_SIZE : Nat := 1 <<< PAGE_SHIFT

/-- Exclusive upper bound of `usize` values: the crate targets a 64-bit
machine word (`MAX_VIRTUAL_ADDRESS = usize::MAX`). -/
def USIZE_LIMIT : Nat := 2 ^ 64

/-- Constant `MAX_VIRTUAL_ADDRESS = usize::MAX` from `addr.rs`. -/
def MAX_VIRTUAL_ADDRESS : Nat := USIZE_LIMIT - 1

/-- Constant `MAX_PAGE_NUMBER = MAX_VIRTUAL_ADDRESS / PAGE_SIZE` from `addr.rs`. -/
def MAX_PAGE_NUMBER : Nat := MAX_VIRTUAL_ADDRESS / PAGE_SIZE

/-- Rust `usize::saturating_add`: clamps at `usize::MAX` instead of wrapping. -/
def usize_saturating_add (x y : Nat) : Nat := min (x + y) (USIZE_LIMIT - 1)

/-- Embeds `is_canonical_physical_address` from `addr.rs`:
`phys_addr.get_bits(52..64) == 0`.  For a 64-bit `usize` value,
`get_bits(52..64)` is the value shifted right by 52. -/
def is_canonical_physical_address (phys_addr : Nat) : Bool :=
  phys_addr >>> 52 == 0

/-- Embeds `canonicalize_physical_address` from `addr.rs`:
`phys_addr & 0x000F_FFFF_FFFF_FFFF` (the mask is `2 ^ 52 - 1`). -/
def canonicalize_physical_address (phys_addr : Nat) : Nat :=
  phys_addr &&& 0x000FFFFFFFFFFFFF

/-- Embeds `PhysicalAddress` from `addr.rs`: a newtype over `usize`
(the source's unnamed tuple field `0` is named `val` here). -/
structure PhysicalAddress where
  val : Nat
deriving DecidableEq

/-- Embeds `PhysicalAddress::new`: validates canonicality, `None` otherwise. -/
def PhysicalAddress.new (addr : Nat) : Option PhysicalAddress :=
  if is_canonical_physical_address addr then some ⟨addr⟩ else none

/-- Embeds `PhysicalAddress::new_canonical`: force-canonicalizes by masking. -/
def PhysicalAddress.new_canonical (addr : Nat) : PhysicalAddress :=
  ⟨canonicalize_physical_address addr⟩

/-- Embeds `PhysicalAddress::value`. -/
def PhysicalAddress.value (a : PhysicalAddress) : Nat := a.val

/-- Embeds `impl Add<usize> for PhysicalAddress` from `addr.rs`:
`PhysicalAddress::new_canonical(self.0.saturating_add(rhs))`. -/
def PhysicalAddress.add (a : PhysicalAddress) (rhs : Nat) : PhysicalAddress :=
  PhysicalAddress.new_canonical (usize_saturating_add a.val rhs)

/-- Embeds `canonicalize_virtual_address` from `addr.rs`:
`((virt_addr << 16) as isize >> 16) as usize` — sign-extension from bit 47.
On a 64-bit word this is: shift left by 16 (wrapping at the word bound),
then arithmetic shift right by 16, which copies the shifted value's top bit
into the 16 result bits it vacates — the plain right shift when the top bit
is clear, the right shift with the upper 16 result bits set when it is set. -/
def canonicalize_virtual_address (virt_addr : Nat) : Nat :=
  let shifted := (virt_addr <<< 16) % USIZE_LIMIT
  if shifted < 2 ^ 63 then shifted >>> 16
  else shifted >>> 16 + (USIZE_LIMIT - 2 ^ 48)

/-- Embeds `VirtualAddress` from `addr.rs`: a newtype over `usize`
(the source's unnamed tuple field `0` is named `val` here). -/
structure VirtualAddress where
  val : Nat
deriving DecidableEq

/-- Embeds `VirtualAddress::new_canonical`: force-canonicalizes by
sign-extending from bit 47. -/
def VirtualAddress.new_canonical (addr : Nat) : VirtualAddress :=
  ⟨canonicalize_virtual_address addr⟩

/-- Embeds `VirtualAddress::value`. -/
def VirtualAddress.value (a : VirtualAddress) : Nat := a.val

/-- Embeds `Frame` from `memory_structs_for_fv/unit.rs`: a page-aligned unit
of physical memory identified by its `number`. -/
structure Frame where
  number : Nat
deriving DecidableEq

instance : LE Frame := ⟨fun a b => a.number ≤ b.number⟩

instance : LT Frame := ⟨fun a b => a.number < b.number⟩

instance (a b : Frame) : Decidable (a ≤ b) :=
  inferInstanceAs (Decidable (a.number ≤ b.number))

instance (a b : Frame) : Decidable (a < b) :=
  inferInstanceAs (Decidable (a.number < b.number))

theorem Frame.le_def (a b : Frame) : a ≤ b ↔ a.number ≤ b.number := Iff.rfl

theorem Frame.lt_def (a b : Frame) : a < b ↔ a.number < b.number := Iff.rfl

theorem Frame.number_inj {a b : Frame} (h : a.number = b.number) : a = b := by
  cases a; cases b; cases h; rfl

/-- Embeds `Frame::start_address`:
`PhysicalAddress::new_canonical(self.number * PAGE_SIZE)`; the `usize`
multiplication wraps at the 64-bit word bound, hence the `% USIZE_LIMIT`. -/
def Frame.start_address (u : Frame) : PhysicalAddress :=
  PhysicalAddress.new_canonical (u.number * PAGE_SIZE % USIZE_LIMIT)

/-- Embeds `Frame::containing_address`: `number = addr.value() / PAGE_SIZE`. -/
def Frame.containing_address (addr : PhysicalAddress) : Frame :=
  ⟨addr.value / PAGE_SIZE⟩

/-- Rust `core::cmp::max` on `Frame` (derived `Ord` compares `number`);
on a tie Rust's `max` returns the second argument. -/
def Frame.max (a b : Frame) : Frame := if a ≤ b then b else a

/-- Rust `core::cmp::min` on `Frame`; on a tie Rust's `min` returns the
first argument. -/
def Frame.min (a b : Frame) : Frame := if a ≤ b then a else b

/-- Embeds `Page` from `memory_structs_for_fv/unit.rs`: a page-aligned unit
of virtual memory identified by its `number`. -/
structure Page where
  number : Nat
deriving DecidableEq

/-- Embeds `Page::start_address`:
`VirtualAddress::new_canonical(self.number * PAGE_SIZE)`; the `usize`
multiplication wraps at the 64-bit word bound, hence the `% USIZE_LIMIT`. -/
def Page.start_address (p : Page) : VirtualAddress :=
  VirtualAddress.new_canonical (p.number * PAGE_SIZE % USIZE_LIMIT)

/-- Embeds `Page::containing_address`: `number = addr.value() / PAGE_SIZE`. -/
def Page.containing_address (addr : VirtualAddress) : Page :=
  ⟨addr.value / PAGE_SIZE⟩

/-- Embeds `RangeInclusive<Frame>` from `memory_structs/range_inclusive.rs`.
The source is generic over `Idx`; every claim instantiates it at a unit type,
embedded here at `Frame`.  The source field `end` is a Lean keyword and is
named `stop` here. -/
structure RangeInclusive where
  start : Frame
  stop : Frame
deriving DecidableEq

/-- Embeds `RangeInclusive::new`: stores the bounds verbatim. -/
def RangeInclusive.new (start stop : Frame) : RangeInclusive := ⟨start, stop⟩

/-- Embeds `RangeInclusive::is_empty`: `self.end < self.start`. -/
def RangeInclusive.is_empty (r : RangeInclusive) : Bool :=
  decide (r.stop < r.start)

/-- Embeds `RangeInclusive::contains` (via `RangeBounds` with two `Included`
bounds): `start <= item && item <= end`. -/
def RangeInclusive.contains (r : RangeInclusive) (item : Frame) : Bool :=
  decide (r.start ≤ item) && decide (item ≤ r.stop)

/-- Embeds `RangeInclusiveIterator<Frame>`: the state of the lazy iterator
(`offset` is the next candidate, `stop` embeds the source field `end`). -/
structure RangeInclusiveIterator where
  offset : Frame
  stop : Frame
deriving DecidableEq

/-- Embeds `RangeInclusive::iter`: starts at the stored `start` bound. -/
def RangeInclusive.iter (r : RangeInclusive) : RangeInclusiveIterator :=
  ⟨r.start, r.stop⟩

/-- The full sequence of elements yielded by `Iterator::next` on a
`RangeInclusiveIterator`: `next` returns `None` when `offset > end` and
otherwise yields `offset` and steps it forward by one
(`Step::forward_checked(offset, 1)`, which on an unbounded `Nat` model is
`offset.number + 1`; the source's `.expect` can only fail when stepping past
`usize::MAX`, which no claim exercises). -/
def RangeInclusiveIterator.toList (it : RangeInclusiveIterator) : List Frame :=
  if h : it.stop < it.offset then []
  else it.offset :: RangeInclusiveIterator.toList ⟨⟨it.offset.number + 1⟩, it.stop⟩
termination_by it.stop.number + 1 - it.offset.number
decreasing_by
  simp only [Frame.lt_def, Nat.not_lt] at h
  omega

/-- Embeds `FrameRange` from `range.rs`: a newtype over
`RangeInclusive<Frame>` (the source's tuple field `0` is named `r0` here). -/
structure FrameRange where
  r0 : RangeInclusive
deriving DecidableEq

/-- Embeds `FrameRange::new`. -/
def FrameRange.new (start stop : Frame) : FrameRange :=
  ⟨RangeInclusive.new start stop⟩

/-- Embeds `FrameRange::empty`: `new(Frame { number: 1 }, Frame { number: 0 })`. -/
def FrameRange.empty : FrameRange := FrameRange.new ⟨1⟩ ⟨0⟩

/-- Embeds `FrameRange::start_address`: `self.0.start().start_address()`. -/
def FrameRange.start_address (r : FrameRange) : PhysicalAddress :=
  r.r0.start.start_address

/-- Embeds `FrameRange::size_in_frames`:
`(self.0.end().number + 1).saturating_sub(self.0.start().number)`
(`Nat` subtraction is saturating subtraction). -/
def FrameRange.size_in_frames (r : FrameRange) : Nat :=
  (r.r0.stop.number + 1) - r.r0.start.number

/-- Embeds `FrameRange::size_in_bytes`. -/
def FrameRange.size_in_bytes (r : FrameRange) : Nat :=
  r.size_in_frames * PAGE_SIZE

/-- Embeds `FrameRange::contains_address`:
`self.0.contains(&Frame::containing_address(addr))`. -/
def FrameRange.contains_address (r : FrameRange) (addr : PhysicalAddress) : Bool :=
  r.r0.contains (Frame.containing_address addr)

/-- Embeds `FrameRange::offset_of_address`:
`Some(addr.value() - self.start_address().value())` when contained
(the `usize` subtraction is exact there, see C10), else `None`. -/
def FrameRange.offset_of_address (r : FrameRange) (addr : PhysicalAddress) : Option Nat :=
  if r.contains_address addr then
    some (addr.value - r.start_address.value)
  else
    none

/-- Embeds `FrameRange::overlap`: `starts = max(self.start, other.start)`,
`ends = min(self.end, other.end)`, `Some(new(starts, ends))` iff
`starts <= ends`. -/
def FrameRange.overlap (x other : FrameRange) : Option FrameRange :=
  let starts := Frame.max x.r0.start other.r0.start
  let ends := Frame.min x.r0.stop other.r0.stop
  if starts ≤ ends then some (FrameRange.new starts ends) else none

/-- Embeds `FrameRange::from_phys_addr`: `assert!(size_in_bytes > 0)` (the
failed assertion is `panicked`), then
`new(Frame::containing_address(starting_addr),
Frame::containing_address(starting_addr + (size_in_bytes - 1)))`. -/
def FrameRange.from_phys_addr (starting_addr : PhysicalAddress)
    (size_in_bytes : Nat) : PanicOr FrameRange :=
  if size_in_bytes > 0 then
    PanicOr.ok (FrameRange.new (Frame.containing_address starting_addr)
      (Frame.containing_address (starting_addr.add (size_in_bytes - 1))))
  else
    PanicOr.panicked

/-- Embeds `TrustedList` from `trusted_list.rs`: `list: Vec<FrameRange>`. -/
structure TrustedList where
  list : List FrameRange
deriving DecidableEq

/-- Embeds `TrustedList::push`. -/
def TrustedList.push (s : TrustedList) (elem : FrameRange) : TrustedList :=
  ⟨s.list ++ [elem]⟩

/-- Embeds `TrustedList::push_unique` exactly as written in the source,
including its stubbed guard `if true { Some(elem) } else { push; None }`
(the real guard `self.object_overlaps_in_list(&elem)` is commented out
there).  The mutation of `&mut self` is modelled by returning the new
`TrustedList` alongside the `Option` result. -/
def TrustedList.push_unique (s : TrustedList) (elem : FrameRange) :
    Option FrameRange × TrustedList :=
  if true then (some elem, s) else (none, s.push elem)

/-- Embeds the loop of `TrustedList::object_in_list`: scan indices upward
from `i`, returning the first index whose element has the same `start` and
`end` bounds as `obj`. -/
def TrustedList.object_in_list_loop (s : TrustedList) (obj : FrameRange)
    (i : Nat) : Option Nat :=
  if h : i < s.list.length then
    if (s.list.get ⟨i, h⟩).r0.start = obj.r0.start ∧
        (s.list.get ⟨i, h⟩).r0.stop = obj.r0.stop then
      some i
    else
      TrustedList.object_in_list_loop s obj (i + 1)
  else
    none
termination_by s.list.length - i

/-- Embeds `TrustedList::object_in_list`: the linear scan starting at 0. -/
def TrustedList.object_in_list (s : TrustedList) (obj : FrameRange) : Option Nat :=
  TrustedList.object_in_list_loop s obj 0

/-- Embeds `ChunkList` from `trusted_chunk.rs`: `Vec<FrameRange>`
(the source's tuple field `0` is named `list` here). -/
structure ChunkList where
  list : List FrameRange
deriving DecidableEq

/-- Embeds `TrustedPChunk` from `trusted_chunk.rs`. -/
structure TrustedPChunk where
  frames : FrameRange
deriving DecidableEq

/-- Embeds `TrustedPChunk::range_overlaps_in_list` exactly as written in the
source: the body is the stub `true`. -/
def TrustedPChunk.range_overlaps_in_list (list : ChunkList) (elem : FrameRange) : Bool :=
  true

/-- Embeds `TrustedPChunk::new`: `None` if `frames.0.start > frames.0.end`,
`None` if `range_overlaps_in_list(chunk_list, frames)`, else
`Some(TrustedPChunk { frames })`.  The source takes `chunk_list: &mut
ChunkList` but never writes it; the (unchanged) list is returned alongside
the result. -/
def TrustedPChunk.new (frames : FrameRange) (chunk_list : ChunkList) :
    Option TrustedPChunk × ChunkList :=
  if frames.r0.start > frames.r0.stop then
    (none, chunk_list)
  else if TrustedPChunk.range_overlaps_in_list chunk_list frames then
    (none, chunk_list)
  else
    (some ⟨frames⟩, chunk_list)

/-- Modelled from the spec: the registry's real admission check is missing
from the source — `TrustedList::push_unique` references the overlap scan
`object_overlaps_in_list` only in a commented-out guard, and
`TrustedPChunk::range_overlaps_in_list` is the stub `true`.  Following
spec section 4.5 `admit`: reject if `range.start > range.end`, reject if
`range` overlaps any currently admitted range (linear scan with
`FrameRange.overlap`), otherwise append `range`.  The returned `Option`
mirrors `push_unique`: `some range` on rejection, `none` on admission. -/
def ChunkRegistry.admitRange (l : List FrameRange) (range : FrameRange) :
    Option FrameRange × List FrameRange :=
  if range.r0.start > range.r0.stop then
    (some range, l)
  else if l.any (fun x => (x.overlap range).isSome) then
    (some range, l)
  else
    (none, l ++ [range])

/-- Modelled from the spec: no removal operation exists in the source
(`TrustedList` has only a private `pop`).  Following spec section 4.5
`remove_exact` / `lookup_exact`: linearly scan for the first element whose
`(start, end)` bounds exactly equal the argument's and remove it; if none
matches the list is unchanged (the `not_found` result value is omitted
since only the tracked state matters to the invariant). -/
def ChunkRegistry.remove_exact (l : List FrameRange) (range : FrameRange) :
    List FrameRange :=
  List.eraseP
    (fun x => decide (x.r0.start = range.r0.start ∧ x.r0.stop = range.r0.stop)) l

/-- An operation on the registry: an admission or an exact removal. -/
inductive RegistryOp where
  | admitOp : FrameRange → RegistryOp
  | removeOp : FrameRange → RegistryOp
deriving DecidableEq

/-- One registry step: the tracked collection after the given operation. -/
def registryStep (l : List FrameRange) : RegistryOp → List FrameRange
  | RegistryOp.admitOp r => (ChunkRegistry.admitRange l r).2
  | RegistryOp.removeOp r => ChunkRegistry.remove_exact l r

/-- The tracked collection after running a sequence of operations starting
from the empty registry. -/
def runRegistry (ops : List RegistryOp) : List FrameRange :=
  ops.foldl registryStep []

/-! Helper lemmas. -/

theorem PAGE_SIZE_eq : PAGE_SIZE = 4096 := by decide

theorem canonicalize_physical_eq_mod (a : Nat) :
    canonicalize_physical_address a = a % 2 ^ 52 := by
  have hm : (0x000FFFFFFFFFFFFF : Nat) = 2 ^ 52 - 1 := by norm_num
  unfold canonicalize_physical_address
  rw [hm, Nat.and_pow_two_sub_one_eq_mod]

theorem Page.number_injective {a b : Page} (h : a.number = b.number) : a = b := by
  cases a; cases b; cases h; rfl

theorem canonicalize_virtual_eq_arith (a : Nat) :
    canonicalize_virtual_address a =
      if a % 2 ^ 48 < 2 ^ 47 then a % 2 ^ 48
      else a % 2 ^ 48 + (2 ^ 64 - 2 ^ 48) := by
  simp only [canonicalize_virtual_address]
  have hshift : (a <<< 16) % USIZE_LIMIT = a % 2 ^ 48 * 2 ^ 16 := by
    rw [Nat.shiftLeft_eq]
    have h64 : USIZE_LIMIT = 2 ^ 48 * 2 ^ 16 := by norm_num [USIZE_LIMIT]
    rw [h64, Nat.mul_mod_mul_right]
  have hdiv : (a % 2 ^ 48 * 2 ^ 16) >>> 16 = a % 2 ^ 48 := by
    rw [Nat.shiftRight_eq_div_pow]
    omega
  have husize : USIZE_LIMIT - 2 ^ 48 = 2 ^ 64 - 2 ^ 48 := by norm_num [USIZE_LIMIT]
  rw [hshift, hdiv, husize]
  by_cases h : a % 2 ^ 48 < 2 ^ 47
  · rw [if_pos (by omega : a % 2 ^ 48 * 2 ^ 16 < 2 ^ 63), if_pos h]
  · rw [if_neg (by omega : ¬ a % 2 ^ 48 * 2 ^ 16 < 2 ^ 63), if_neg h]

theorem is_canonical_of_lt {a : Nat} (h : a < 2 ^ 52) :
    is_canonical_physical_address a = true := by
  unfold is_canonical_physical_address
  rw [Nat.shiftRight_eq_div_pow, Nat.div_eq_of_lt h]
  rfl

theorem Frame.max_comm (a b : Frame) : Frame.max a b = Frame.max b a := by
  unfold Frame.max
  split <;> split <;> rename_i h1 h2 <;> rw [Frame.le_def] at h1 h2 <;>
    first
    | rfl
    | exact Frame.number_inj (by omega)

theorem Frame.min_comm (a b : Frame) : Frame.min a b = Frame.min b a := by
  unfold Frame.min
  split <;> split <;> rename_i h1 h2 <;> rw [Frame.le_def] at h1 h2 <;>
    first
    | rfl
    | exact Frame.number_inj (by omega)

theorem Frame.left_le_max (a b : Frame) : a.number ≤ (Frame.max a b).number := by
  unfold Frame.max
  split <;> rename_i h <;> rw [Frame.le_def] at h <;> omega

theorem Frame.right_le_max (a b : Frame) : b.number ≤ (Frame.max a b).number := by
  unfold Frame.max
  split <;> rename_i h <;> rw [Frame.le_def] at h <;> omega

theorem Frame.min_le_left (a b : Frame) : (Frame.min a b).number ≤ a.number := by
  unfold Frame.min
  split <;> rename_i h <;> rw [Frame.le_def] at h <;> omega

theorem Frame.min_le_right (a b : Frame) : (Frame.min a b).number ≤ b.number := by
  unfold Frame.min
  split <;> rename_i h <;> rw [Frame.le_def] at h <;> omega

theorem FrameRange.overlap_comm (x y : FrameRange) :
    x.overlap y = y.overlap x := by
  unfold FrameRange.overlap
  rw [Frame.max_comm x.r0.start y.r0.start, Frame.min_comm x.r0.stop y.r0.stop]

theorem overlap_none_symmetric :
    Symmetric (fun a b : FrameRange => a.overlap b = none) := by
  intro a b h
  rw [FrameRange.overlap_comm]
  exact h

theorem pairwise_admit (l : List FrameRange) (r : FrameRange)
    (h : l.Pairwise fun a b => a.overlap b = none) :
    ((ChunkRegistry.admitRange l r).2).Pairwise fun a b => a.overlap b = none := by
  unfold ChunkRegistry.admitRange
  by_cases hmal : r.r0.start > r.r0.stop
  · rw [if_pos hmal]
    exact h
  · rw [if_neg hmal]
    by_cases hany : (l.any fun x => (x.overlap r).isSome) = true
    · rw [if_pos hany]
      exact h
    · rw [if_neg hany]
      apply List.pairwise_append.mpr
      refine ⟨h, List.pairwise_singleton _ _, ?_⟩
      intro a ha b hb
      have hb' : b = r := List.mem_singleton.mp hb
      show a.overlap b = none
      rw [hb']
      have hx : ¬ ((a.overlap r).isSome = true) := by
        intro hsome
        exact hany (List.any_eq_true.mpr ⟨a, ha, hsome⟩)
      cases hov : a.overlap r with
      | none => rfl
      | some v => exact absurd (by rw [hov]; rfl) hx

theorem pairwise_registryStep (l : List FrameRange) (op : RegistryOp)
    (h : l.Pairwise fun a b => a.overlap b = none) :
    (registryStep l op).Pairwise fun a b => a.overlap b = none := by
  cases op with
  | admitOp r => exact pairwise_admit l r h
  | removeOp r => exact List.Pairwise.sublist (List.eraseP_sublist l) h

theorem pairwise_runRegistry_from (ops : List RegistryOp) :
    ∀ l : List FrameRange, (l.Pairwise fun a b => a.overlap b = none) →
      (ops.foldl registryStep l).Pairwise fun a b => a.overlap b = none := by
  induction ops with
  | nil => intro l h; exact h
  | cons op ops ih =>
    intro l h
    exact ih (registryStep l op) (pairwise_registryStep l op h)

/-- C1: evaluated on the source as written, admission is a stub that rejects
everything.  At the claim's own input — the well-formed, non-overlapping
range `FrameRange::new(Frame 1, Frame 5)` against the empty registry —
`TrustedList::push_unique` returns `Some` (rejected) and leaves the list
empty, and `TrustedPChunk::new` returns `None`.  The claim (with the spec
and the commented-out overlap guard inside `push_unique` itself) says this
admission must succeed, so the stub is recorded as a code bug. -/
theorem C1_admission_stub_rejects_everything :
    (TrustedList.push_unique ⟨[]⟩ (FrameRange.new ⟨1⟩ ⟨5⟩)).1
        = some (FrameRange.new ⟨1⟩ ⟨5⟩) ∧
    (TrustedList.push_unique ⟨[]⟩ (FrameRange.new ⟨1⟩ ⟨5⟩)).2.list = [] ∧
    (TrustedPChunk.new (FrameRange.new ⟨1⟩ ⟨5⟩) ⟨[]⟩).1 = none := by
  decide

/-- C2: starting from the empty registry, after every finite sequence of
admission and exact-removal operations (modelled from spec section 4.5
because the source's overlap scan and removal are missing), the tracked
collection is pairwise disjoint: any two distinct tracked ranges have
`overlap = none`. -/
theorem C2_registry_pairwise_disjoint (ops : List RegistryOp) :
    ∀ r1 ∈ runRegistry ops, ∀ r2 ∈ runRegistry ops,
      r1 ≠ r2 → r1.overlap r2 = none := by
  intro r1 h1 r2 h2 hne
  have hp := pairwise_runRegistry_from ops [] List.Pairwise.nil
  exact hp.forall overlap_none_symmetric h1 h2 hne

/-- Witness for C2 at the spec's admission-determinism scenario: after
admitting (1,5), (3,4) (rejected: overlap) and (6,9), the two tracked
ranges do not overlap. -/
theorem C2_witness :
    (FrameRange.new ⟨1⟩ ⟨5⟩).overlap (FrameRange.new ⟨6⟩ ⟨9⟩) = none :=
  C2_registry_pairwise_disjoint
    [RegistryOp.admitOp (FrameRange.new ⟨1⟩ ⟨5⟩),
     RegistryOp.admitOp (FrameRange.new ⟨3⟩ ⟨4⟩),
     RegistryOp.admitOp (FrameRange.new ⟨6⟩ ⟨9⟩)]
    (FrameRange.new ⟨1⟩ ⟨5⟩) (by decide)
    (FrameRange.new ⟨6⟩ ⟨9⟩) (by decide) (by decide)

/-- C3: `TrustedPChunk::new` returns `None` whenever `start > end`, and
every rejection leaves the tracked collection exactly unchanged — `new`
never mutates the chunk list at all, and `push_unique` leaves its list
untouched whenever it reports a rejection (returns `Some`). -/
theorem C3_rejection_leaves_registry_unchanged :
    (∀ (frames : FrameRange) (cl : ChunkList),
      (frames.r0.start > frames.r0.stop → (TrustedPChunk.new frames cl).1 = none) ∧
      (TrustedPChunk.new frames cl).2 = cl) ∧
    (∀ (s : TrustedList) (elem : FrameRange),
      ((s.push_unique elem).1).isSome = true → (s.push_unique elem).2 = s) := by
  constructor
  · intro frames cl
    constructor
    · intro hmal
      unfold TrustedPChunk.new
      rw [if_pos hmal]
    · unfold TrustedPChunk.new
      by_cases hmal : frames.r0.start > frames.r0.stop
      · rw [if_pos hmal]
      · rw [if_neg hmal]
        rfl
  · intro s elem _
    rfl

/-- Witness for C3: the malformed range (1,0) is rejected and the empty
chunk list is unchanged; a rejecting `push_unique` leaves its list intact. -/
theorem C3_witness :
    (TrustedPChunk.new (FrameRange.new ⟨1⟩ ⟨0⟩) ⟨[]⟩).1 = none ∧
    (TrustedPChunk.new (FrameRange.new ⟨1⟩ ⟨0⟩) ⟨[]⟩).2 = (⟨[]⟩ : ChunkList) ∧
    (TrustedList.push_unique ⟨[]⟩ (FrameRange.new ⟨1⟩ ⟨5⟩)).2 = (⟨[]⟩ : TrustedList) :=
  ⟨(C3_rejection_leaves_registry_unchanged.1 (FrameRange.new ⟨1⟩ ⟨0⟩) ⟨[]⟩).1 (by decide),
   (C3_rejection_leaves_registry_unchanged.1 (FrameRange.new ⟨1⟩ ⟨0⟩) ⟨[]⟩).2,
   C3_rejection_leaves_registry_unchanged.2 ⟨[]⟩ (FrameRange.new ⟨1⟩ ⟨5⟩) (by decide)⟩

/-- C4: for all FrameRanges `x` and `y`, `overlap` returns
`some (new (max starts) (min ends))` exactly when
`max(x.start, y.start) <= min(x.end, y.end)` and `none` otherwise, and an
empty operand (its end below its start) never overlaps anything. -/
theorem C4_overlap_formula (x y : FrameRange) :
    (Frame.max x.r0.start y.r0.start ≤ Frame.min x.r0.stop y.r0.stop →
      x.overlap y = some (FrameRange.new (Frame.max x.r0.start y.r0.start)
        (Frame.min x.r0.stop y.r0.stop))) ∧
    (¬ Frame.max x.r0.start y.r0.start ≤ Frame.min x.r0.stop y.r0.stop →
      x.overlap y = none) ∧
    (x.r0.stop < x.r0.start → x.overlap y = none) ∧
    (y.r0.stop < y.r0.start → x.overlap y = none) := by
  refine ⟨?_, ?_, ?_, ?_⟩
  · intro hle
    simp only [FrameRange.overlap]
    rw [if_pos hle]
  · intro hnle
    simp only [FrameRange.overlap]
    rw [if_neg hnle]
  · intro hx
    have hnle : ¬ Frame.max x.r0.start y.r0.start ≤ Frame.min x.r0.stop y.r0.stop := by
      have h1 := Frame.left_le_max x.r0.start y.r0.start
      have h2 := Frame.min_le_left x.r0.stop y.r0.stop
      rw [Frame.lt_def] at hx
      rw [Frame.le_def]
      omega
    simp only [FrameRange.overlap]
    rw [if_neg hnle]
  · intro hy
    have hnle : ¬ Frame.max x.r0.start y.r0.start ≤ Frame.min x.r0.stop y.r0.stop := by
      have h1 := Frame.right_le_max x.r0.start y.r0.start
      have h2 := Frame.min_le_right x.r0.stop y.r0.stop
      rw [Frame.lt_def] at hy
      rw [Frame.le_def]
      omega
    simp only [FrameRange.overlap]
    rw [if_neg hnle]

/-- Witness for C4: ranges (1,5) and (4,8) overlap in (4,5); the empty
range (1,0) overlaps nothing. -/
theorem C4_witness :
    (FrameRange.new ⟨1⟩ ⟨5⟩).overlap (FrameRange.new ⟨4⟩ ⟨8⟩)
      = some (FrameRange.new (Frame.max ⟨1⟩ ⟨4⟩) (Frame.min ⟨5⟩ ⟨8⟩)) ∧
    (FrameRange.new ⟨1⟩ ⟨0⟩).overlap (FrameRange.new ⟨0⟩ ⟨9⟩) = none :=
  ⟨(C4_overlap_formula (FrameRange.new ⟨1⟩ ⟨5⟩) (FrameRange.new ⟨4⟩ ⟨8⟩)).1 (by decide),
   (C4_overlap_formula (FrameRange.new ⟨1⟩ ⟨0⟩) (FrameRange.new ⟨0⟩ ⟨9⟩)).2.2.1 (by decide)⟩

/-- C5 counterexample: the round-trip fails for representable unit numbers
of both kinds.  For frames, number 2^40 (well below
MAX_PAGE_NUMBER = 2^52 - 1) has start address 2^40 * 4096 = 2^52, which
`canonicalize_physical_address` masks to 0, so the round-trip lands at
Frame 0.  For pages, number 2^35 has start address 2^47, which
`canonicalize_virtual_address` sign-extends to 0xFFFF_8000_0000_0000, so
the round-trip lands at page number 2^52 - 2^36 + 2^35, not 2^35. -/
theorem C5_counterexample :
    Frame.containing_address (Frame.start_address ⟨2 ^ 40⟩) ≠ (⟨2 ^ 40⟩ : Frame) ∧
    Page.containing_address (Page.start_address ⟨2 ^ 35⟩) ≠ (⟨2 ^ 35⟩ : Page) := by
  constructor
  · intro h
    have hn := congrArg Frame.number h
    simp only [Frame.start_address, Frame.containing_address, PhysicalAddress.new_canonical,
      PhysicalAddress.value, canonicalize_physical_eq_mod, PAGE_SIZE_eq, USIZE_LIMIT] at hn
    norm_num at hn
  · intro h
    have hn := congrArg Page.number h
    simp only [Page.start_address, Page.containing_address, VirtualAddress.new_canonical,
      VirtualAddress.value, canonicalize_virtual_eq_arith, PAGE_SIZE_eq, USIZE_LIMIT] at hn
    rw [if_neg (by norm_num)] at hn
    norm_num at hn

/-- C5 amended: the round-trip `containing_address (start_address u) = u`
holds exactly on the unit numbers whose start address survives
canonicalization unchanged.  For every Frame with number below 2^40 (start
address within the canonical 52-bit physical range) the round-trip holds;
likewise for every Page whose number is below 2^35 or lies in the high
canonical band [2^52 - 2^35, 2^52) (start address sign-extension-canonical).
Outside those bounds canonicalization (masking for physical,
sign-extension for virtual) alters the start address and the round-trip
fails, as at Frame 2^40 and Page 2^35. -/
theorem C5_roundtrip_amended :
    (∀ u : Frame, u.number < 2 ^ 40 →
      Frame.containing_address u.start_address = u) ∧
    (∀ p : Page,
      p.number < 2 ^ 35 ∨ (2 ^ 52 - 2 ^ 35 ≤ p.number ∧ p.number < 2 ^ 52) →
      Page.containing_address p.start_address = p) := by
  constructor
  · intro u h
    refine Frame.number_inj ?_
    simp only [Frame.containing_address, Frame.start_address, PhysicalAddress.new_canonical,
      PhysicalAddress.value, canonicalize_physical_eq_mod, PAGE_SIZE_eq, USIZE_LIMIT]
    omega
  · intro p hp
    refine Page.number_injective ?_
    simp only [Page.containing_address, Page.start_address, VirtualAddress.new_canonical,
      VirtualAddress.value, canonicalize_virtual_eq_arith, PAGE_SIZE_eq, USIZE_LIMIT]
    rcases hp with h | h
    · rw [if_pos (by omega)]
      omega
    · rw [if_neg (by omega)]
      omega

/-- Witness for C5 amended at Frame 2, Page 2, and the high-band page
2^52 - 1 (whose start address is the sign-extended top of memory). -/
theorem C5_witness :
    Frame.containing_address (Frame.start_address ⟨2⟩) = (⟨2⟩ : Frame) ∧
    Page.containing_address (Page.start_address ⟨2⟩) = (⟨2⟩ : Page) ∧
    Page.containing_address (Page.start_address ⟨2 ^ 52 - 1⟩) = (⟨2 ^ 52 - 1⟩ : Page) :=
  ⟨C5_roundtrip_amended.1 ⟨2⟩ (by norm_num),
   C5_roundtrip_amended.2 ⟨2⟩ (Or.inl (by norm_num)),
   C5_roundtrip_amended.2 ⟨2 ^ 52 - 1⟩ (Or.inr (by norm_num))⟩

/-- C6 counterexample: adding 1 to the canonical address 2^52 - 1 (the top
of the canonical physical address space) yields address value 0 — the
saturating add does not saturate there (2^52 is far below usize::MAX) and
the re-canonicalizing mask wraps the value around to a smaller address,
contradicting the claim's "never wraparound to a smaller address value". -/
theorem C6_counterexample :
    ((PhysicalAddress.new_canonical (2 ^ 52 - 1)).add 1).value
      < (PhysicalAddress.new_canonical (2 ^ 52 - 1)).value := by
  simp only [PhysicalAddress.add, PhysicalAddress.new_canonical, PhysicalAddress.value,
    canonicalize_physical_eq_mod, usize_saturating_add, USIZE_LIMIT]
  norm_num

/-- C6 amended: `a + n` is exactly
`new_canonical(a.value().saturating_add(n))`, its result is always a
canonical physical address, and no wraparound occurs while the exact sum
stays below the canonical bound 2^52; at that bound the masking
re-canonicalization can produce a smaller value (see the counterexample),
so saturation is only guaranteed at the native-word bound, not at the top
of the canonical address space. -/
theorem C6_add_saturating_canonical (a : PhysicalAddress) (n : Nat) :
    a.add n = PhysicalAddress.new_canonical (usize_saturating_add a.value n) ∧
    is_canonical_physical_address ((a.add n).value) = true ∧
    (a.value + n < 2 ^ 52 → (a.add n).value = a.value + n) := by
  refine ⟨rfl, ?_, ?_⟩
  · apply is_canonical_of_lt
    show (PhysicalAddress.new_canonical _).val < 2 ^ 52
    simp only [PhysicalAddress.new_canonical, canonicalize_physical_eq_mod]
    exact Nat.mod_lt _ (by norm_num)
  · intro h
    simp only [PhysicalAddress.value] at h
    simp only [PhysicalAddress.add, PhysicalAddress.new_canonical, PhysicalAddress.value,
      canonicalize_physical_eq_mod, usize_saturating_add, USIZE_LIMIT]
    omega

/-- Witness for C6 amended: adding 0x1000 to canonical address 0x2000 gives
exactly 0x3000 (no wraparound below the canonical bound). -/
theorem C6_witness :
    ((PhysicalAddress.new_canonical 0x2000).add 0x1000).value
      = (PhysicalAddress.new_canonical 0x2000).value + 0x1000 :=
  (C6_add_saturating_canonical (PhysicalAddress.new_canonical 0x2000) 0x1000).2.2
    (by simp only [PhysicalAddress.value, PhysicalAddress.new_canonical,
          canonicalize_physical_eq_mod]
        norm_num)

/-- C7: `from_phys_addr` fails (assertion, `panicked`) for size 0; for
every positive size it returns the range from
`containing_address(starting_addr)` to
`containing_address(starting_addr + (size_in_bytes - 1))`; and a size of
exactly one page maps to a single-frame range:
`from_phys_addr(0x2000, 0x1000)` is the one-frame range at Frame 2 whose
`start_address` is 0x2000. -/
theorem C7_from_phys_addr_spec :
    (∀ addr : PhysicalAddress, FrameRange.from_phys_addr addr 0 = PanicOr.panicked) ∧
    (∀ (addr : PhysicalAddress) (size_in_bytes : Nat), 0 < size_in_bytes →
      FrameRange.from_phys_addr addr size_in_bytes
        = PanicOr.ok (FrameRange.new (Frame.containing_address addr)
            (Frame.containing_address (addr.add (size_in_bytes - 1))))) ∧
    FrameRange.from_phys_addr (PhysicalAddress.new_canonical 0x2000) 0x1000
      = PanicOr.ok (FrameRange.new ⟨2⟩ ⟨2⟩) ∧
    (FrameRange.new ⟨2⟩ ⟨2⟩).size_in_frames = 1 ∧
    (FrameRange.new ⟨2⟩ ⟨2⟩).start_address.value = 0x2000 := by
  refine ⟨?_, ?_, ?_, ?_, ?_⟩
  · intro addr
    rfl
  · intro addr size_in_bytes h
    unfold FrameRange.from_phys_addr
    rw [if_pos h]
  · unfold FrameRange.from_phys_addr
    rw [if_pos (by norm_num)]
    simp only [Frame.containing_address, PhysicalAddress.add, PhysicalAddress.new_canonical,
      PhysicalAddress.value, canonicalize_physical_eq_mod, usize_saturating_add, USIZE_LIMIT,
      FrameRange.new, RangeInclusive.new, PAGE_SIZE_eq]
    norm_num
  · decide
  · simp only [FrameRange.start_address, FrameRange.new, RangeInclusive.new,
      Frame.start_address, PhysicalAddress.new_canonical, PhysicalAddress.value,
      canonicalize_physical_eq_mod, PAGE_SIZE_eq, USIZE_LIMIT]
    norm_num

/-- Witness for C7 at the one-page boundary case, size 0x1000. -/
theorem C7_witness :
    FrameRange.from_phys_addr (PhysicalAddress.new_canonical 0x2000) 0x1000
      = PanicOr.ok (FrameRange.new
          (Frame.containing_address (PhysicalAddress.new_canonical 0x2000))
          (Frame.containing_address
            ((PhysicalAddress.new_canonical 0x2000).add (0x1000 - 1)))) :=
  C7_from_phys_addr_spec.2.1 (PhysicalAddress.new_canonical 0x2000) 0x1000 (by norm_num)

/-- C8 counterexample: the claim says every error outcome is reported to
the caller via a result value and that no operation terminates the process
for any input, but `FrameRange::from_phys_addr` with `size_in_bytes == 0`
fails its `assert!(size_in_bytes > 0)` — modelled by `panicked`, which is
unrecoverable termination rather than a returned `Option`/result value. -/
theorem C8_counterexample :
    FrameRange.from_phys_addr (PhysicalAddress.new_canonical 0x2000) 0
      = PanicOr.panicked := rfl

theorem object_in_list_loop_none (s : TrustedList) (obj : FrameRange)
    (h : ∀ x ∈ s.list, ¬(x.r0.start = obj.r0.start ∧ x.r0.stop = obj.r0.stop)) :
    ∀ k i : Nat, s.list.length ≤ i + k →
      TrustedList.object_in_list_loop s obj i = none := by
  intro k
  induction k with
  | zero =>
    intro i hi
    rw [TrustedList.object_in_list_loop.eq_def]
    rw [dif_neg (by omega)]
  | succ k ih =>
    intro i hi
    rw [TrustedList.object_in_list_loop.eq_def]
    by_cases hlt : i < s.list.length
    · rw [dif_pos hlt]
      rw [if_neg (h _ (s.list.get_mem i hlt))]
      exact ih (i + 1) (by omega)
    · rw [dif_neg hlt]

/-- C8 amended: a non-canonical address given to the validating
constructor, an identity-not-found lookup, and a positive-size range
construction are all reported to the immediate caller via result values
(`none` / `some` / `ok`); the one exception the counterexample forces is
`size_in_bytes == 0` given to `from_phys_addr`, which violates the
`assert!(size_in_bytes > 0)` precondition and terminates (`panicked`)
instead of returning a value. -/
theorem C8_error_reporting_amended :
    (∀ a : Nat, is_canonical_physical_address a = false → PhysicalAddress.new a = none) ∧
    (∀ (s : TrustedList) (obj : FrameRange),
      (∀ x ∈ s.list, ¬(x.r0.start = obj.r0.start ∧ x.r0.stop = obj.r0.stop)) →
      s.object_in_list obj = none) ∧
    (∀ (addr : PhysicalAddress) (size_in_bytes : Nat), 0 < size_in_bytes →
      ∃ r, FrameRange.from_phys_addr addr size_in_bytes = PanicOr.ok r) ∧
    (∀ addr : PhysicalAddress, FrameRange.from_phys_addr addr 0 = PanicOr.panicked) := by
  refine ⟨?_, ?_, ?_, ?_⟩
  · intro a h
    unfold PhysicalAddress.new
    rw [if_neg (by simp [h])]
  · intro s obj h
    exact object_in_list_loop_none s obj h s.list.length 0 (by omega)
  · intro addr size_in_bytes h
    refine ⟨FrameRange.new (Frame.containing_address addr)
      (Frame.containing_address (addr.add (size_in_bytes - 1))), ?_⟩
    unfold FrameRange.from_phys_addr
    rw [if_pos h]
  · intro addr
    rfl

/-- Witness for C8 amended: the non-canonical address 2^52 is refused with
`none`; looking up (6,9) in a registry tracking only (1,5) reports `none`;
a positive-size construction returns a value; size 0 hits the assertion. -/
theorem C8_witness :
    PhysicalAddress.new (2 ^ 52) = none ∧
    (⟨[FrameRange.new ⟨1⟩ ⟨5⟩]⟩ : TrustedList).object_in_list (FrameRange.new ⟨6⟩ ⟨9⟩)
      = none ∧
    (∃ r, FrameRange.from_phys_addr (PhysicalAddress.new_canonical 0x2000) 0x1000
      = PanicOr.ok r) ∧
    FrameRange.from_phys_addr (PhysicalAddress.new_canonical 0x2000) 0
      = PanicOr.panicked :=
  ⟨C8_error_reporting_amended.1 (2 ^ 52) (by decide),
   C8_error_reporting_amended.2.1 ⟨[FrameRange.new ⟨1⟩ ⟨5⟩]⟩ (FrameRange.new ⟨6⟩ ⟨9⟩)
     (by decide),
   C8_error_reporting_amended.2.2.1 (PhysicalAddress.new_canonical 0x2000) 0x1000
     (by norm_num),
   C8_error_reporting_amended.2.2.2 (PhysicalAddress.new_canonical 0x2000)⟩

/-- C9: `RangeInclusive::new(a, b).is_empty()` is true exactly when
`b < a`, and the iterator of an empty range yields zero elements. -/
theorem C9_emptiness_law (a b : Frame) :
    ((RangeInclusive.new a b).is_empty = true ↔ b < a) ∧
    (b < a → ((RangeInclusive.new a b).iter).toList = []) := by
  constructor
  · simp [RangeInclusive.new, RangeInclusive.is_empty]
  · intro h
    have h2 : ((RangeInclusive.new a b).iter).stop < ((RangeInclusive.new a b).iter).offset := h
    rw [RangeInclusiveIterator.toList.eq_def, dif_pos h2]

/-- Witness for C9 at the canonical empty range (1, 0). -/
theorem C9_witness :
    ((RangeInclusive.new ⟨1⟩ ⟨0⟩).is_empty = true) ∧
    ((RangeInclusive.new ⟨1⟩ ⟨0⟩).iter).toList = [] :=
  ⟨(C9_emptiness_law ⟨1⟩ ⟨0⟩).1.mpr (by decide),
   (C9_emptiness_law ⟨1⟩ ⟨0⟩).2 (by decide)⟩

/-- C10: whenever `contains_address` holds, the address value is at least
the range's start-address value, so the subtraction inside
`offset_of_address` never underflows and the returned offset is the exact
byte distance from the range's start address. -/
theorem C10_offset_no_underflow (r : FrameRange) (addr : PhysicalAddress)
    (h : r.contains_address addr = true) :
    r.start_address.value ≤ addr.value ∧
    r.offset_of_address addr = some (addr.value - r.start_address.value) := by
  have h1 : r.r0.start.number ≤ addr.value / PAGE_SIZE := by
    have hc := h
    unfold FrameRange.contains_address RangeInclusive.contains at hc
    rw [Bool.and_eq_true, decide_eq_true_eq, decide_eq_true_eq] at hc
    have h2 := hc.1
    rw [Frame.le_def] at h2
    exact h2
  have hmul : r.r0.start.number * PAGE_SIZE ≤ addr.value :=
    (Nat.le_div_iff_mul_le (by rw [PAGE_SIZE_eq]; norm_num)).mp h1
  have hle : r.start_address.value ≤ addr.value := by
    calc r.start_address.value
        ≤ r.r0.start.number * PAGE_SIZE := by
          simp only [FrameRange.start_address, Frame.start_address,
            PhysicalAddress.new_canonical, PhysicalAddress.value,
            canonicalize_physical_eq_mod]
          exact le_trans (Nat.mod_le _ _) (Nat.mod_le _ _)
      _ ≤ addr.value := hmul
  refine ⟨hle, ?_⟩
  unfold FrameRange.offset_of_address
  rw [if_pos h]

/-- Witness for C10: the range (1,5) contains address 0x2000, whose offset
from the range's start address is reported exactly. -/
theorem C10_witness :
    (FrameRange.new ⟨1⟩ ⟨5⟩).start_address.value ≤ (⟨0x2000⟩ : PhysicalAddress).value ∧
    (FrameRange.new ⟨1⟩ ⟨5⟩).offset_of_address ⟨0x2000⟩
      = some ((⟨0x2000⟩ : PhysicalAddress).value
          - (FrameRange.new ⟨1⟩ ⟨5⟩).start_address.value) :=
  C10_offset_no_underflow (FrameRange.new ⟨1⟩ ⟨5⟩) ⟨0x2000⟩ (by decide)

end VerifiedRanges
